import Mathlib

/-!
# roar: raising, formatting and dispatching an error (`include/roar.h`)

A shallow embedding of the implementation part of `roar.h`: the static
function `handler_vprint`, the two statement blocks `ROAR_RAISE_PREPROCESS`
and `ROAR_RAISE_POSTPROCESS`, the entry points `roar_handler_raise` and
`roar_handler_vraise`, and the call-site shorthands built on them.

Conventions of the embedding.

* A C string is the list of its characters, without the terminating NUL. A
  pointer that may be `NULL` is an `Option`.
* `struct roar_handler` holds, for the stream, the characters written to it so
  far and, for the string buffer, the bytes of the buffer it points to. A
  callback is a function pointer, a number, which the environment resolves.
* Everything `roar.h` takes from the C library and from the program around it
  is a field of `Env`: `errno`, `strerror`, the text a `printf` directive
  string expands to, the state of a `va_list` after a `v*printf` call, and the
  code behind each callback pointer. A callback is described by the value it
  returns: it returns, and it leaves the handler as it found it.
* The build-time settings (`ROAR_STRING_SIZE`, `ROAR_FORMAT_HEADER`,
  `ROAR_FORMAT_BRA`, `ROAR_FORMAT_CKET`) are the fields of `Config`;
  `Config.default` holds the values `roar.h` gives them. The properties of the
  string buffer are stated for a capacity of at least one byte.
* Every call records what it does in a trace of `Event`s, in program order, so
  that the order of callbacks and outputs, and every store into the buffer,
  can be stated.
* The `printf` family is taken on its defined domain: a call succeeds, and
  `snprintf` returns the length of the untruncated text, a natural number
  (texts within the range of `int`).
* `handler_vprint` hands its `va_list` to `vfprintf` for the stream and then,
  without `va_copy`, to `vsnprintf` for the string buffer. What the second
  call reads is what the platform leaves of the list after the first,
  `Env.va_after`.
-/

namespace Roar

/-! ## The data model -/

/-- One argument of a variadic call: a string, an integer, or a `va_list`
object handed over as an argument. -/
inductive Arg where
  | str (s : List Char)
  | int (i : Int)
  | va (ap : List Arg)

/-- A variadic list: the arguments still to be fetched. -/
abbrev va_list := List Arg

/-- The value `EXIT_SUCCESS` of `stdlib.h`. -/
def EXIT_SUCCESS : Int := 0

/-- The value `EXIT_FAILURE` of `stdlib.h`. -/
def EXIT_FAILURE : Int := 1

/-- The byte `0x0`. -/
def NUL : Char := Char.ofNat 0

/-- The line feed. -/
def LF : Char := Char.ofNat 10

/-- The record `struct roar_handler`: `stream` is the output written so far to
the `FILE` (or `NULL`), `string` the bytes of the buffer (or `NULL`), `pre` and
`post` the callback pointers (or `NULL`). -/
structure roar_handler where
  stream : Option (List Char)
  string : Option (List Char)
  pre : Option Nat
  post : Option Nat
deriving DecidableEq

/-- The build-time settings of `roar.h`. -/
structure Config where
  ROAR_STRING_SIZE : Nat
  ROAR_FORMAT_HEADER : List Char
  ROAR_FORMAT_BRA : List Char
  ROAR_FORMAT_CKET : List Char

/-- The helper `RED(x)` of `roar.h`. -/
def RED (x : List Char) : List Char :=
  "\x1b[31m".toList ++ x ++ "\x1b[0m".toList

/-- The helper `CYN(x)` of `roar.h`. -/
def CYN (x : List Char) : List Char :=
  "\x1b[36m".toList ++ x ++ "\x1b[0m".toList

/-- The settings `roar.h` defines when the build gives none. -/
def Config.default : Config where
  ROAR_STRING_SIZE := 80
  ROAR_FORMAT_HEADER :=
    RED "error".toList ++ " \x7b ".toList ++ CYN "%s, %s:%d".toList ++ " \x7d : \x1b[31m".toList
  ROAR_FORMAT_BRA := " \x1b[0m\x7b \x1b[36m".toList
  ROAR_FORMAT_CKET := "\x1b[0m \x7d".toList

/-- What `roar.h` uses from outside: the C library and the callbacks.

* `errno` is the value of `errno` when the raise is entered;
* `strerror c` is the text `strerror(c)` points to;
* `vformat fmt ap` is the text a `printf`-family call produces for the
  directive string `fmt` and the arguments `ap`;
* `va_after fmt ap` is the state of the caller's `va_list` once a `v*printf`
  call on `fmt` has returned: ISO C (7.16, 7.21.6.8) leaves it indeterminate,
  a platform that passes the list by value gives `ap` back, one that passes a
  reference gives the unread arguments;
* `callback f h referent code` is the value returned by the callback behind
  the pointer `f`. -/
structure Env where
  errno : Int
  strerror : Int → List Char
  vformat : List Char → va_list → List Char
  va_after : List Char → va_list → va_list
  callback : Nat → roar_handler → Nat → Int → Int

/-- What a raise does, step by step. -/
inductive Event where
  | pre (h : roar_handler) (referent : Nat) (code : Int)
  | post (h : roar_handler) (referent : Nat) (code : Int)
  | fputs (text : List Char)
  | snprintf (n size : Nat) (text : List Char)
  | store (i : Nat) (c : Char)
deriving DecidableEq

/-- The characters a possibly `NULL` string argument contributes: the string
itself, nothing for `NULL`. -/
def cstr (m : Option (List Char)) : List Char :=
  m.getD []

/-! ## The C library calls on the string buffer -/

/-- The stores `snprintf(h->string + n, size, ...)` makes for the expanded text
`text`: nothing when `size` is zero, otherwise the first `size - 1` characters
of the text followed by a NUL, from index `n` on. -/
def snprintf_stores (n size : Nat) (text : List Char) : List (Nat × Char) :=
  if size = 0 then [] else List.enumFrom n (text.take (size - 1) ++ [NUL])

/-- One store `s[i] = c`. -/
def poke (s : List Char) (w : Nat × Char) : List Char :=
  s.set w.1 w.2

/-- The call `snprintf(h->string + n, size, ...)`: the buffer after the stores
and the returned length of the untruncated text. -/
def snprintf (s : List Char) (n size : Nat) (text : List Char) : List Char × Nat :=
  ((snprintf_stores n size text).foldl poke s, text.length)

/-- The stores an event makes into the string buffer. -/
def Event.stores : Event → List (Nat × Char)
  | Event.snprintf n size text => snprintf_stores n size text
  | Event.store i c => [(i, c)]
  | _ => []

/-- The text an event sends to the stream. -/
def Event.output : Event → List Char
  | Event.fputs text => text
  | _ => []

/-- Whether an event is a call of a callback. -/
def Event.isCallback : Event → Bool
  | Event.pre _ _ _ => true
  | Event.post _ _ _ => true
  | _ => false

/-! ## `handler_vprint` -/

/-- The stream part of `handler_vprint`, in progress: the output so far, the
variadic list, the calls made. -/
structure Out where
  stream : List Char
  args : va_list
  trace : List Event

/-- The calls `fputs(text, h->stream)` and `fprintf(h->stream, ...)` with
spelled-out arguments, which expand to `text`. -/
def Out.fputs (o : Out) (text : List Char) : Out :=
  { o with stream := o.stream ++ text, trace := o.trace ++ [Event.fputs text] }

/-- The call `vfprintf(h->stream, fmt, args)`. -/
def Out.vfprintf (E : Env) (o : Out) (fmt : List Char) : Out :=
  { stream := o.stream ++ E.vformat fmt o.args
    args := E.va_after fmt o.args
    trace := o.trace ++ [Event.fputs (E.vformat fmt o.args)] }

/-- Lines 262-280 of `roar.h`: the dump to the stream. -/
def vprint_stream (cfg : Config) (E : Env) (out : List Char) (function file : List Char)
    (line : Int) (code : Int) (use_errno : Int) (message parameter : Option (List Char))
    (args : va_list) : Out :=
  let o : Out := ⟨out, args, []⟩
  let o := o.fputs (E.vformat cfg.ROAR_FORMAT_HEADER [Arg.str function, Arg.str file, Arg.int line])
  let o :=
    if use_errno ≠ 0 then o.fputs (E.strerror code)
    else if parameter ≠ none then o.fputs (cstr message)
    else o.vfprintf E (cstr message)
  match parameter with
  | some p =>
    let o := o.fputs cfg.ROAR_FORMAT_BRA
    let o := o.vfprintf E p
    o.fputs (cfg.ROAR_FORMAT_CKET ++ [LF])
  | none => o.fputs [LF]

/-- The string part of `handler_vprint`, in progress: the buffer, the running
length `n`, the calls made. -/
structure Buf where
  string : List Char
  n : Nat
  trace : List Event

/-- One formatting step on the buffer,
`n += snprintf(h->string + n, ROAR_STRING_SIZE - n, ...); if (n >= ROAR_STRING_SIZE) goto end;`
for the expanded text `text`. `Except.error` is the jump to `end`. -/
def Buf.print (size : Nat) (b : Buf) (text : List Char) : Except Buf Buf :=
  let r := snprintf b.string b.n (size - b.n) text
  let b2 : Buf := ⟨r.1, b.n + r.2, b.trace ++ [Event.snprintf b.n (size - b.n) text]⟩
  if b2.n ≥ size then Except.error b2 else Except.ok b2

/-- Lines 284-311 of `roar.h`: the formatting steps, up to the label `end`. -/
def vprint_steps (cfg : Config) (E : Env) (s : List Char) (function file : List Char)
    (line : Int) (code : Int) (use_errno : Int) (message parameter : Option (List Char))
    (args : va_list) : Except Buf Buf := do
  let b ← Buf.print cfg.ROAR_STRING_SIZE ⟨s, 0, []⟩
    (E.vformat cfg.ROAR_FORMAT_HEADER [Arg.str function, Arg.str file, Arg.int line])
  let b ←
    if use_errno ≠ 0 then Buf.print cfg.ROAR_STRING_SIZE b (E.strerror code)
    else if parameter ≠ none then Buf.print cfg.ROAR_STRING_SIZE b (cstr message)
    else Buf.print cfg.ROAR_STRING_SIZE b (E.vformat (cstr message) args)
  match parameter with
  | some p =>
    let b ← Buf.print cfg.ROAR_STRING_SIZE b (E.vformat cfg.ROAR_FORMAT_BRA [])
    let b ← Buf.print cfg.ROAR_STRING_SIZE b (E.vformat p args)
    Buf.print cfg.ROAR_STRING_SIZE b (E.vformat cfg.ROAR_FORMAT_CKET [])
  | none => pure b

/-- The label `end` of `handler_vprint`: `h->string[ROAR_STRING_SIZE - 1] = 0x0;`
(an index of the buffer for a capacity of at least one byte). -/
def vprint_end (cfg : Config) (b : Buf) : List Char × List Event :=
  (poke b.string (cfg.ROAR_STRING_SIZE - 1, NUL),
    b.trace ++ [Event.store (cfg.ROAR_STRING_SIZE - 1) NUL])

/-- Lines 282-314 of `roar.h`: the dump to the string buffer. -/
def vprint_string (cfg : Config) (E : Env) (s : List Char) (function file : List Char)
    (line : Int) (code : Int) (use_errno : Int) (message parameter : Option (List Char))
    (args : va_list) : List Char × List Event :=
  match vprint_steps cfg E s function file line code use_errno message parameter args with
  | Except.ok b => vprint_end cfg b
  | Except.error b => vprint_end cfg b

/-- The function `handler_vprint`: the handler after the dump and the calls made. The
stream comes first; the string buffer is formatted with the variadic list as
the stream part left it. -/
def handler_vprint (cfg : Config) (E : Env) (h : roar_handler) (function file : List Char)
    (line : Int) (_referent : Nat) (code : Int) (use_errno : Int)
    (message parameter : Option (List Char)) (args : va_list) : roar_handler × List Event :=
  -- `if (h->stream != NULL) { ... }`: the handler, the variadic list and the calls after it
  let st : roar_handler × va_list × List Event :=
    match h.stream with
    | some out =>
      let o := vprint_stream cfg E out function file line code use_errno message parameter args
      ({ h with stream := some o.stream }, o.args, o.trace)
    | none => (h, args, [])
  -- `if (h->string != NULL) { ... }`
  match st.1.string with
  | some s =>
    let r := vprint_string cfg E s function file line code use_errno message parameter st.2.1
    ({ st.1 with string := some r.1 }, st.2.2 ++ r.2)
  | none => (st.1, st.2.2)

/-! ## The raise -/

/-- What a raise leaves behind: the returned code, the handler after the call,
the calls made. -/
structure Raised where
  code : Int
  handler : Option roar_handler
  trace : List Event

/-- How `ROAR_RAISE_PREPROCESS` ends: with a `return code;`, or by falling through
with the resolved code and the handler `h`. -/
inductive Pre where
  | ret (r : Raised)
  | go (code : Int) (h : roar_handler) (trace : List Event)

/-- The block `ROAR_RAISE_PREPROCESS`. -/
def ROAR_RAISE_PREPROCESS (E : Env) (handler : Option roar_handler) (referent : Nat)
    (code : Int) (use_errno : Int) : Pre :=
  let code := if use_errno ≠ 0 ∧ code = 0 then E.errno else code
  match handler with
  | none => Pre.ret ⟨code, none, []⟩
  | some h =>
    match h.pre with
    | some f =>
      if E.callback f h referent code = EXIT_SUCCESS then
        Pre.ret ⟨code, some h, [Event.pre h referent code]⟩
      else Pre.go code h [Event.pre h referent code]
    | none => Pre.go code h []

/-- The block `ROAR_RAISE_POSTPROCESS`; the value the callback returns is dropped. -/
def ROAR_RAISE_POSTPROCESS (h : roar_handler) (referent : Nat) (code : Int)
    (trace : List Event) : Raised :=
  match h.post with
  | some _ => ⟨code, some h, trace ++ [Event.post h referent code]⟩
  | none => ⟨code, some h, trace⟩

/-- The function `roar_handler_raise`; `varargs` are the arguments after `parameter`. -/
def roar_handler_raise (cfg : Config) (E : Env) (handler : Option roar_handler)
    (function file : List Char) (line : Int) (referent : Nat) (code : Int) (use_errno : Int)
    (message parameter : Option (List Char)) (varargs : List Arg) : Raised :=
  match ROAR_RAISE_PREPROCESS E handler referent code use_errno with
  | Pre.ret r => r
  | Pre.go code h trace =>
    let args : va_list := varargs
    let r := handler_vprint cfg E h function file line referent code use_errno message
      parameter args
    ROAR_RAISE_POSTPROCESS r.1 referent code (trace ++ r.2)

/-- The function `roar_handler_vraise`. -/
def roar_handler_vraise (cfg : Config) (E : Env) (handler : Option roar_handler)
    (function file : List Char) (line : Int) (referent : Nat) (code : Int) (use_errno : Int)
    (message parameter : Option (List Char)) (args : va_list) : Raised :=
  match ROAR_RAISE_PREPROCESS E handler referent code use_errno with
  | Pre.ret r => r
  | Pre.go code h trace =>
    let r := handler_vprint cfg E h function file line referent code use_errno message
      parameter args
    ROAR_RAISE_POSTPROCESS r.1 referent code (trace ++ r.2)

/-! ## The call-site shorthands

`function`, `file` and `line` stand for `__func__`, `__FILE__` and
`__LINE__` at the place of the call. -/

/-- The shorthand `ROAR_ERRWP_FORMAT(handler, referent, code, message, format, ...)`. -/
def ROAR_ERRWP_FORMAT (cfg : Config) (E : Env) (function file : List Char) (line : Int)
    (handler : Option roar_handler) (referent : Nat) (code : Int) (message format : List Char)
    (varargs : List Arg) : Raised :=
  roar_handler_raise cfg E handler function file line referent code 0 (some message)
    (some format) varargs

/-- The shorthand `ROAR_ERRNO(handler, referent, code)`. -/
def ROAR_ERRNO (cfg : Config) (E : Env) (function file : List Char) (line : Int)
    (handler : Option roar_handler) (referent : Nat) (code : Int) : Raised :=
  roar_handler_raise cfg E handler function file line referent code 1 none none []

/-- The shorthand `ROAR_ERRNO_FORMAT(handler, referent, code, format, ...)`. -/
def ROAR_ERRNO_FORMAT (cfg : Config) (E : Env) (function file : List Char) (line : Int)
    (handler : Option roar_handler) (referent : Nat) (code : Int) (format : List Char)
    (varargs : List Arg) : Raised :=
  roar_handler_raise cfg E handler function file line referent code 1 none (some format)
    varargs

/-- The shorthand `ROAR_ERRNO_VFORMAT(handler, referent, code, format, args)`: it
calls `roar_handler_raise`, with the variadic list `args` as the one argument
after `format`. -/
def ROAR_ERRNO_VFORMAT (cfg : Config) (E : Env) (function file : List Char) (line : Int)
    (handler : Option roar_handler) (referent : Nat) (code : Int) (format : List Char)
    (args : va_list) : Raised :=
  roar_handler_raise cfg E handler function file line referent code 1 none (some format)
    [Arg.va args]

/-! ## The notions the properties are stated with -/

/-- The resolved code: the value of `errno` on entry when the errno flag is set
and the given code is zero, the given code otherwise. -/
def resolved_code (E : Env) (code use_errno : Int) : Int :=
  if use_errno ≠ 0 ∧ code = 0 then E.errno else code

/-- Whether the callback `pre` of `h` is present and answers `EXIT_SUCCESS`. -/
def suppressed (E : Env) (h : roar_handler) (referent : Nat) (code : Int) : Prop :=
  ∃ f, h.pre = some f ∧ E.callback f h referent code = EXIT_SUCCESS

/-- The header of a line: `ROAR_FORMAT_HEADER` expanded with the function, the
file and the line number. -/
def header (cfg : Config) (E : Env) (function file : List Char) (line : Int) : List Char :=
  E.vformat cfg.ROAR_FORMAT_HEADER [Arg.str function, Arg.str file, Arg.int line]

/-- The body of a line, for the variadic list `ap`. -/
def body (E : Env) (code use_errno : Int) (message parameter : Option (List Char))
    (ap : va_list) : List Char :=
  if use_errno ≠ 0 then E.strerror code
  else if parameter ≠ none then cstr message
  else E.vformat (cstr message) ap

/-- The bracketed parameter of a line, for the variadic list `ap`: nothing when
no parameter is given. -/
def bracketed (cfg : Config) (E : Env) (parameter : Option (List Char)) (ap : va_list) :
    List Char :=
  match parameter with
  | some p => cfg.ROAR_FORMAT_BRA ++ E.vformat p ap ++ cfg.ROAR_FORMAT_CKET
  | none => []

/-- The untruncated line: header, body, bracketed parameter. -/
def full_text (cfg : Config) (E : Env) (function file : List Char) (line : Int)
    (code use_errno : Int) (message parameter : Option (List Char)) (ap : va_list) :
    List Char :=
  header cfg E function file line ++ body E code use_errno message parameter ap
    ++ bracketed cfg E parameter ap

/-- The variadic list as the string part of `handler_vprint` receives it: the
caller's list when the handler has no stream, the list as the stream part
left it otherwise. -/
def string_args (E : Env) (h : roar_handler) (use_errno : Int)
    (message parameter : Option (List Char)) (args : va_list) : va_list :=
  match h.stream with
  | none => args
  | some _ =>
    match parameter with
    | some p => E.va_after p args
    | none => if use_errno ≠ 0 then args else E.va_after (cstr message) args

/-- The text a buffer holds as a C string: the bytes before the first NUL. -/
def c_text (s : List Char) : List Char :=
  s.takeWhile (fun c => c ≠ NUL)

/-- Whether an event is a call on the string buffer. -/
def Event.onString : Event → Bool
  | Event.snprintf _ _ _ => true
  | Event.store _ _ => true
  | _ => false

/-- The call of the callback `pre` a raise on `h` makes, when there is one. -/
def pre_events (h : roar_handler) (referent : Nat) (code : Int) : List Event :=
  match h.pre with
  | some _ => [Event.pre h referent code]
  | none => []

/-- The call of the callback `post` a raise that reaches `ROAR_RAISE_POSTPROCESS`
with the handler `h` makes, when there is one. -/
def post_events (h : roar_handler) (referent : Nat) (code : Int) : List Event :=
  match h.post with
  | some _ => [Event.post h referent code]
  | none => []

/-- The calls the stream part of `handler_vprint` makes on `h`: none without a
stream. -/
def stream_trace (cfg : Config) (E : Env) (h : roar_handler) (function file : List Char)
    (line : Int) (code : Int) (use_errno : Int) (message parameter : Option (List Char))
    (args : va_list) : List Event :=
  match h.stream with
  | some out =>
    (vprint_stream cfg E out function file line code use_errno message parameter args).trace
  | none => []

/-- The calls the string part of `handler_vprint` makes on `h`: none without a
string buffer. -/
def string_trace (cfg : Config) (E : Env) (h : roar_handler) (function file : List Char)
    (line : Int) (code : Int) (use_errno : Int) (message parameter : Option (List Char))
    (args : va_list) : List Event :=
  match h.string with
  | some s =>
    (vprint_string cfg E s function file line code use_errno message parameter
      (string_args E h use_errno message parameter args)).2
  | none => []

/-- The handler a dump leaves: the line and a line feed appended to the stream,
the string buffer as `vprint_string` leaves it, the callbacks as they were. -/
def dumped (cfg : Config) (E : Env) (h : roar_handler) (function file : List Char)
    (line : Int) (code : Int) (use_errno : Int) (message parameter : Option (List Char))
    (args : va_list) : roar_handler where
  stream := h.stream.map fun out =>
    out ++ (full_text cfg E function file line code use_errno message parameter args ++ [LF])
  string := h.string.map fun s =>
    (vprint_string cfg E s function file line code use_errno message parameter
      (string_args E h use_errno message parameter args)).1
  pre := h.pre
  post := h.post

/-! ## A concrete environment -/

/-- The decimal digits of an integer. -/
def decimal (i : Int) : List Char :=
  if i < 0 then '-' :: Nat.toDigits 10 i.natAbs else Nat.toDigits 10 i.toNat

/-- A small `printf`: `%s`, `%d` and `%%`; the other characters are copied. A
directive whose argument is missing or of another kind fetches what there is
and prints nothing (a C library prints unpredictable bytes there). Returns
the text and the arguments left. -/
def expand : List Char → va_list → List Char × va_list
  | [], ap => ([], ap)
  | c :: fmt, ap =>
    if c = '%' then
      match fmt, ap with
      | 's' :: rest, Arg.str s :: ap2 => let r := expand rest ap2; (s ++ r.1, r.2)
      | 'd' :: rest, Arg.int i :: ap2 => let r := expand rest ap2; (decimal i ++ r.1, r.2)
      | 's' :: rest, ap2 => let r := expand rest (ap2.drop 1); (r.1, r.2)
      | 'd' :: rest, ap2 => let r := expand rest (ap2.drop 1); (r.1, r.2)
      | '%' :: rest, ap2 => let r := expand rest ap2; ('%' :: r.1, r.2)
      | rest, ap2 => let r := expand rest ap2; ('%' :: r.1, r.2)
    else let r := expand fmt ap; (c :: r.1, r.2)

/-- The value `ENOENT` of `errno.h` on Linux. -/
def ENOENT : Int := 2

/-- The value `EINVAL` of `errno.h` on Linux. -/
def EINVAL : Int := 22

/-- The address standing for `&main` in `examples/example.c`. -/
def main_ptr : Nat := 1

/-- The address standing for `&handle_pre_error` in `examples/example.c`. -/
def handle_pre_error_ptr : Nat := 2

/-- The callback `handle_pre_error` of `examples/example.c`. -/
def handle_pre_error (_handler : roar_handler) (referent : Nat) (code : Int) : Int :=
  if referent = main_ptr ∧ code = ENOENT then EXIT_SUCCESS else EXIT_FAILURE

/-- A platform for the examples: `errno` holds `ENOENT`, the `va_list` is handed
over by value, the callback behind `handle_pre_error_ptr` is
`handle_pre_error`, any other callback answers `EXIT_FAILURE`. -/
def libc : Env where
  errno := ENOENT
  strerror := fun c =>
    if c = ENOENT then "No such file or directory".toList
    else if c = EINVAL then "Invalid argument".toList
    else "Unknown error".toList
  vformat := fun fmt ap => (expand fmt ap).1
  va_after := fun _ ap => ap
  callback := fun f h referent code =>
    if f = handle_pre_error_ptr then handle_pre_error h referent code else EXIT_FAILURE

/-- The same platform with the `va_list` handed over by reference: a `v*printf`
call leaves the caller with the arguments it has not read. -/
def libc_by_ref : Env :=
  { libc with va_after := fun fmt ap => (expand fmt ap).2 }

/-- The handler of `examples/example.c`: logging to `stderr`, no string buffer,
`handle_pre_error` before and a callback after. -/
def example_handler : roar_handler where
  stream := some []
  string := none
  pre := some handle_pre_error_ptr
  post := some 3

/-- A handler with an empty stream, an 80-byte buffer and no callback. -/
def plain_handler : roar_handler where
  stream := some []
  string := some (List.replicate 80 'x')
  pre := none
  post := none

/-! ## The stores of `snprintf` -/

/-- The dump to the stream: the line and a line feed are appended, by calls
that only write to the stream. -/
theorem vprint_stream_spec (cfg : Config) (E : Env) (out : List Char)
    (function file : List Char) (line : Int) (code : Int) (use_errno : Int)
    (message parameter : Option (List Char)) (args : va_list) :
    (vprint_stream cfg E out function file line code use_errno message parameter args).stream
      = out ++ (full_text cfg E function file line code use_errno message parameter args ++ [LF]) ∧
    ((vprint_stream cfg E out function file line code use_errno message parameter
        args).trace.flatMap Event.output)
      = full_text cfg E function file line code use_errno message parameter args ++ [LF] ∧
    (vprint_stream cfg E out function file line code use_errno message parameter args).args
      = (match parameter with
        | some p => E.va_after p args
        | none => if use_errno ≠ 0 then args else E.va_after (cstr message) args) ∧
    ∀ e ∈ (vprint_stream cfg E out function file line code use_errno message parameter
        args).trace,
      e.onString = false ∧ e.isCallback = false ∧ e.stores = [] := by
  unfold vprint_stream full_text body bracketed header
  cases parameter with
  | none =>
    by_cases hu : use_errno ≠ 0
    · simp [hu, Out.fputs, Out.vfprintf, Event.output, Event.onString, Event.isCallback,
        Event.stores]
    · simp [hu, Out.fputs, Out.vfprintf, Event.output, Event.onString, Event.isCallback,
        Event.stores]
  | some p =>
    by_cases hu : use_errno ≠ 0
    · simp [hu, Out.fputs, Out.vfprintf, Event.output, Event.onString, Event.isCallback,
        Event.stores]
    · simp [hu, Out.fputs, Out.vfprintf, Event.output, Event.onString, Event.isCallback,
        Event.stores]

/-! ## `handler_vprint` as a whole -/

theorem handler_vprint_fst (cfg : Config) (E : Env) (h : roar_handler)
    (function file : List Char) (line : Int) (referent : Nat) (code : Int) (use_errno : Int)
    (message parameter : Option (List Char)) (args : va_list) :
    (handler_vprint cfg E h function file line referent code use_errno message parameter args).1
      = { stream := h.stream.map fun out =>
            out ++ (full_text cfg E function file line code use_errno message parameter args
              ++ [LF])
          string := h.string.map fun s =>
            (vprint_string cfg E s function file line code use_errno message parameter
              (string_args E h use_errno message parameter args)).1
          pre := h.pre
          post := h.post } := by
  obtain ⟨st, sg, pr, po⟩ := h
  cases st with
  | none => cases sg <;> simp [handler_vprint, string_args]
  | some out =>
    cases sg with
    | none => simp [handler_vprint, (vprint_stream_spec cfg E out function file line code
        use_errno message parameter args).1]
    | some s =>
      simp [handler_vprint, string_args, (vprint_stream_spec cfg E out function file line code
        use_errno message parameter args).1, (vprint_stream_spec cfg E out function file line
        code use_errno message parameter args).2.2.1]

theorem handler_vprint_snd (cfg : Config) (E : Env) (h : roar_handler)
    (function file : List Char) (line : Int) (referent : Nat) (code : Int) (use_errno : Int)
    (message parameter : Option (List Char)) (args : va_list) :
    (handler_vprint cfg E h function file line referent code use_errno message parameter args).2
      = (match h.stream with
          | some out =>
            (vprint_stream cfg E out function file line code use_errno message parameter
              args).trace
          | none => []) ++
        (match h.string with
          | some s =>
            (vprint_string cfg E s function file line code use_errno message parameter
              (string_args E h use_errno message parameter args)).2
          | none => []) := by
  obtain ⟨st, sg, pr, po⟩ := h
  cases st with
  | none => cases sg <;> simp [handler_vprint, string_args]
  | some out =>
    cases sg with
    | none => simp [handler_vprint]
    | some s =>
      simp [handler_vprint, string_args, (vprint_stream_spec cfg E out function file line
        code use_errno message parameter args).2.2.1]

/-! ## The two entry points -/

theorem raise_eq_vraise (cfg : Config) (E : Env) (handler : Option roar_handler)
    (function file : List Char) (line : Int) (referent : Nat) (code : Int) (use_errno : Int)
    (message parameter : Option (List Char)) (args : va_list) :
    roar_handler_raise cfg E handler function file line referent code use_errno message
        parameter args
      = roar_handler_vraise cfg E handler function file line referent code use_errno message
        parameter args := rfl

theorem vraise_absent (cfg : Config) (E : Env)
    (function file : List Char) (line : Int) (referent : Nat) (code : Int) (use_errno : Int)
    (message parameter : Option (List Char)) (args : va_list) :
    roar_handler_vraise cfg E none function file line referent code use_errno message
        parameter args
      = ⟨resolved_code E code use_errno, none, []⟩ := rfl

theorem preprocess_suppressed (E : Env) (h : roar_handler) (referent : Nat)
    (code use_errno : Int)
    (hsup : suppressed E h referent (resolved_code E code use_errno)) :
    ROAR_RAISE_PREPROCESS E (some h) referent code use_errno
      = Pre.ret ⟨resolved_code E code use_errno, some h,
          [Event.pre h referent (resolved_code E code use_errno)]⟩ := by
  obtain ⟨f, hf, hret⟩ := hsup
  unfold ROAR_RAISE_PREPROCESS
  simp only [hf]
  exact if_pos hret

theorem preprocess_not_suppressed (E : Env) (h : roar_handler) (referent : Nat)
    (code use_errno : Int)
    (hns : ¬ suppressed E h referent (resolved_code E code use_errno)) :
    ROAR_RAISE_PREPROCESS E (some h) referent code use_errno
      = Pre.go (resolved_code E code use_errno) h
          (pre_events h referent (resolved_code E code use_errno)) := by
  unfold ROAR_RAISE_PREPROCESS pre_events
  cases hp : h.pre with
  | none => simp only [hp]; rfl
  | some f =>
    have hret : ¬ E.callback f h referent (resolved_code E code use_errno) = EXIT_SUCCESS :=
      fun hc => hns ⟨f, hp, hc⟩
    simp only [hp]
    exact if_neg hret

theorem postprocess_eq (h : roar_handler) (referent : Nat) (code : Int) (trace : List Event) :
    ROAR_RAISE_POSTPROCESS h referent code trace
      = ⟨code, some h, trace ++ post_events h referent code⟩ := by
  unfold ROAR_RAISE_POSTPROCESS post_events
  cases h.post <;> simp

theorem vraise_suppressed (cfg : Config) (E : Env) (h : roar_handler)
    (function file : List Char) (line : Int) (referent : Nat) (code : Int) (use_errno : Int)
    (message parameter : Option (List Char)) (args : va_list)
    (hsup : suppressed E h referent (resolved_code E code use_errno)) :
    roar_handler_vraise cfg E (some h) function file line referent code use_errno message
        parameter args
      = ⟨resolved_code E code use_errno, some h,
          [Event.pre h referent (resolved_code E code use_errno)]⟩ := by
  rw [roar_handler_vraise, preprocess_suppressed E h referent code use_errno hsup]

theorem vraise_not_suppressed (cfg : Config) (E : Env) (h : roar_handler)
    (function file : List Char) (line : Int) (referent : Nat) (code : Int) (use_errno : Int)
    (message parameter : Option (List Char)) (args : va_list)
    (hns : ¬ suppressed E h referent (resolved_code E code use_errno)) :
    roar_handler_vraise cfg E (some h) function file line referent code use_errno message
        parameter args
      = ⟨resolved_code E code use_errno,
          some (handler_vprint cfg E h function file line referent
            (resolved_code E code use_errno) use_errno message parameter args).1,
          pre_events h referent (resolved_code E code use_errno)
            ++ (handler_vprint cfg E h function file line referent
              (resolved_code E code use_errno) use_errno message parameter args).2
            ++ post_events (handler_vprint cfg E h function file line referent
              (resolved_code E code use_errno) use_errno message parameter args).1 referent
              (resolved_code E code use_errno)⟩ := by
  rw [roar_handler_vraise, preprocess_not_suppressed E h referent code use_errno hns]
  simp only [postprocess_eq]


/-! ## Reading the trace and the buffer -/

theorem pre_events_spec (h : roar_handler) (referent : Nat) (code : Int) :
    ∀ e ∈ pre_events h referent code,
      e = Event.pre h referent code ∧ e.isCallback = true ∧ e.onString = false ∧
        e.stores = [] ∧ e.output = [] := by
  intro e he
  unfold pre_events at he
  cases hp : h.pre with
  | none => simp [hp] at he
  | some f =>
    simp only [hp, List.mem_singleton] at he
    subst he
    exact ⟨rfl, rfl, rfl, rfl, rfl⟩

theorem post_events_spec (h : roar_handler) (referent : Nat) (code : Int) :
    ∀ e ∈ post_events h referent code,
      e = Event.post h referent code ∧ e.isCallback = true ∧ e.onString = false ∧
        e.stores = [] ∧ e.output = [] := by
  intro e he
  unfold post_events at he
  cases hp : h.post with
  | none => simp [hp] at he
  | some f =>
    simp only [hp, List.mem_singleton] at he
    subst he
    exact ⟨rfl, rfl, rfl, rfl, rfl⟩

/-- A raise that is not suppressed: the code, the handler and the calls, with
the callbacks around the dump. -/
theorem vraise_anatomy (cfg : Config) (E : Env) (h : roar_handler)
    (function file : List Char) (line : Int) (referent : Nat) (code : Int) (use_errno : Int)
    (message parameter : Option (List Char)) (args : va_list)
    (hns : ¬ suppressed E h referent (resolved_code E code use_errno)) :
    roar_handler_vraise cfg E (some h) function file line referent code use_errno message
        parameter args
      = ⟨resolved_code E code use_errno,
          some (dumped cfg E h function file line (resolved_code E code use_errno) use_errno
            message parameter args),
          pre_events h referent (resolved_code E code use_errno)
            ++ (stream_trace cfg E h function file line (resolved_code E code use_errno)
                use_errno message parameter args
              ++ string_trace cfg E h function file line (resolved_code E code use_errno)
                use_errno message parameter args)
            ++ post_events (dumped cfg E h function file line (resolved_code E code use_errno)
                use_errno message parameter args) referent (resolved_code E code use_errno)⟩ := by
  rw [vraise_not_suppressed cfg E h function file line referent code use_errno message
    parameter args hns, handler_vprint_fst, handler_vprint_snd]
  rfl

/-- C1: for every handler, absent or present, whatever its callbacks return and
whatever sinks it has, and every code, errno flag, message, parameter and
argument list, `roar_handler_raise` and `roar_handler_vraise` return the
resolved code: the value of `errno` on entry when the errno flag is set and the
given code is 0, the given code unchanged otherwise. -/
theorem raise_returns_resolved_code (cfg : Config) (E : Env) (handler : Option roar_handler)
    (function file : List Char) (line : Int) (referent : Nat) (code : Int) (use_errno : Int)
    (message parameter : Option (List Char)) (args : va_list) :
    (roar_handler_raise cfg E handler function file line referent code use_errno message
      parameter args).code = resolved_code E code use_errno ∧
    (roar_handler_vraise cfg E handler function file line referent code use_errno message
      parameter args).code = resolved_code E code use_errno ∧
    (use_errno ≠ 0 ∧ code = 0 → resolved_code E code use_errno = E.errno) ∧
    (¬ (use_errno ≠ 0 ∧ code = 0) → resolved_code E code use_errno = code) := by
  have hv : (roar_handler_vraise cfg E handler function file line referent code use_errno
      message parameter args).code = resolved_code E code use_errno := by
    cases handler with
    | none => rfl
    | some h =>
      by_cases hs : suppressed E h referent (resolved_code E code use_errno)
      · rw [vraise_suppressed cfg E h function file line referent code use_errno message
          parameter args hs]
      · rw [vraise_anatomy cfg E h function file line referent code use_errno message
          parameter args hs]
  refine ⟨by rw [raise_eq_vraise]; exact hv, hv, ?_, ?_⟩
  · intro hc; exact if_pos hc
  · intro hc; exact if_neg hc

/-- C2: when the callback `pre` of the handler is present and returns
`EXIT_SUCCESS` for the referent and the resolved code, a raise (through either
entry point) leaves the handler as it was, stream and string buffer included,
and the only call it makes is that of `pre`: nothing is written to the stream,
nothing is stored in the buffer, `post` is not called. -/
theorem suppressed_raise_writes_nothing (cfg : Config) (E : Env) (h : roar_handler)
    (function file : List Char) (line : Int) (referent : Nat) (code : Int) (use_errno : Int)
    (message parameter : Option (List Char)) (args : va_list) (f : Nat)
    (hpre : h.pre = some f)
    (hret : E.callback f h referent (resolved_code E code use_errno) = EXIT_SUCCESS)
    (r : Raised)
    (hr : r = roar_handler_raise cfg E (some h) function file line referent code use_errno
            message parameter args ∨
          r = roar_handler_vraise cfg E (some h) function file line referent code use_errno
            message parameter args) :
    r.handler = some h ∧
    r.trace = [Event.pre h referent (resolved_code E code use_errno)] ∧
    (∀ e ∈ r.trace, e.output = [] ∧ e.stores = [] ∧ e.onString = false ∧
      ∀ h2 referent2 code2, e ≠ Event.post h2 referent2 code2) := by
  have hr2 : r = roar_handler_vraise cfg E (some h) function file line referent code
      use_errno message parameter args := by
    rcases hr with hr | hr
    · rw [hr, raise_eq_vraise]
    · exact hr
  rw [hr2, vraise_suppressed cfg E h function file line referent code use_errno message
    parameter args ⟨f, hpre, hret⟩]
  refine ⟨rfl, rfl, ?_⟩
  intro e he
  simp only [List.mem_singleton] at he
  subst he
  exact ⟨rfl, rfl, rfl, fun _ _ _ hc => by cases hc⟩

/-- C2 at the first call of `examples/example.c`: `ROAR_ERRNO(&handler, &main, 0)`
with `errno` at `ENOENT` is discarded by `handle_pre_error`. -/
theorem suppressed_raise_writes_nothing_witness :
    example_handler.pre = some handle_pre_error_ptr ∧
    libc.callback handle_pre_error_ptr example_handler main_ptr (resolved_code libc 0 1)
      = EXIT_SUCCESS ∧
    (ROAR_ERRNO Config.default libc "main".toList "example.c".toList 25 (some example_handler)
      main_ptr 0).handler = some example_handler ∧
    (ROAR_ERRNO Config.default libc "main".toList "example.c".toList 25 (some example_handler)
      main_ptr 0).trace = [Event.pre example_handler main_ptr ENOENT] :=
  have t := suppressed_raise_writes_nothing Config.default libc example_handler
    "main".toList "example.c".toList 25 main_ptr 0 1 none none [] handle_pre_error_ptr rfl
    (by decide) _ (Or.inl rfl)
  ⟨rfl, by decide, t.1, t.2.1⟩

/-- C9: on a handler with neither stream nor string buffer, a raise (through
either entry point) returns the resolved code, leaves the handler as it was, and
makes no call but those of the callbacks: nothing is written to a sink. -/
theorem raise_without_sinks_has_no_effect (cfg : Config) (E : Env) (h : roar_handler)
    (function file : List Char) (line : Int) (referent : Nat) (code : Int) (use_errno : Int)
    (message parameter : Option (List Char)) (args : va_list)
    (hst : h.stream = none) (hsg : h.string = none) (r : Raised)
    (hr : r = roar_handler_raise cfg E (some h) function file line referent code use_errno
            message parameter args ∨
          r = roar_handler_vraise cfg E (some h) function file line referent code use_errno
            message parameter args) :
    r.code = resolved_code E code use_errno ∧
    r.handler = some h ∧
    (∀ e ∈ r.trace, e.isCallback = true ∧ e.output = [] ∧ e.stores = [] ∧
      e.onString = false) := by
  have hr2 : r = roar_handler_vraise cfg E (some h) function file line referent code
      use_errno message parameter args := by
    rcases hr with hr | hr
    · rw [hr, raise_eq_vraise]
    · exact hr
  by_cases hs : suppressed E h referent (resolved_code E code use_errno)
  · rw [hr2, vraise_suppressed cfg E h function file line referent code use_errno message
      parameter args hs]
    refine ⟨rfl, rfl, ?_⟩
    intro e he
    simp only [List.mem_singleton] at he
    subst he
    exact ⟨rfl, rfl, rfl, rfl⟩
  · rw [hr2, vraise_anatomy cfg E h function file line referent code use_errno message
      parameter args hs]
    have hd : dumped cfg E h function file line (resolved_code E code use_errno) use_errno
        message parameter args = h := by
      obtain ⟨st, sg, pr, po⟩ := h
      simp only at hst hsg
      subst hst; subst hsg
      rfl
    have h1 : stream_trace cfg E h function file line (resolved_code E code use_errno)
        use_errno message parameter args = [] := by
      unfold stream_trace; rw [hst]
    have h2 : string_trace cfg E h function file line (resolved_code E code use_errno)
        use_errno message parameter args = [] := by
      unfold string_trace; rw [hsg]
    rw [hd, h1, h2]
    refine ⟨rfl, rfl, ?_⟩
    intro e he
    simp only [List.append_nil, List.mem_append] at he
    rcases he with he | he
    · obtain ⟨_, a, b, c, d⟩ := pre_events_spec h referent _ e he
      exact ⟨a, d, c, b⟩
    · obtain ⟨_, a, b, c, d⟩ := post_events_spec h referent _ e he
      exact ⟨a, d, c, b⟩

/-- C9 at a handler that only carries a callback `post`. -/
theorem raise_without_sinks_has_no_effect_witness :
    (⟨none, none, none, some 3⟩ : roar_handler).stream = none ∧
    (⟨none, none, none, some 3⟩ : roar_handler).string = none ∧
    (ROAR_ERRNO Config.default libc "main".toList "example.c".toList 25
      (some ⟨none, none, none, some 3⟩) main_ptr 0).code = ENOENT ∧
    (ROAR_ERRNO Config.default libc "main".toList "example.c".toList 25
      (some ⟨none, none, none, some 3⟩) main_ptr 0).handler = some ⟨none, none, none, some 3⟩ :=
  have t := raise_without_sinks_has_no_effect Config.default libc ⟨none, none, none, some 3⟩
    "main".toList "example.c".toList 25 main_ptr 0 1 none none [] rfl rfl _ (Or.inl rfl)
  ⟨rfl, rfl, t.1, t.2.1⟩

/-- C10, the code at a failing input: `ROAR_ERRNO_VFORMAT` with the format `%s`
and a variadic list holding `config.txt` returns the code of
`roar_handler_vraise` with the errno flag set, and of `ROAR_ERRNO_FORMAT` with
the argument spelled out, but does not leave the handler they leave: it is the
call of `roar_handler_raise` with the list itself as only argument, so the
parameter is not expanded with the arguments the list holds. -/
theorem errno_vformat_passes_the_list_as_argument :
    (ROAR_ERRNO_VFORMAT Config.default libc "main".toList "example.c".toList 28
        (some plain_handler) main_ptr EINVAL "%s".toList [Arg.str "config.txt".toList]).code
      = (roar_handler_vraise Config.default libc (some plain_handler) "main".toList
        "example.c".toList 28 main_ptr EINVAL 1 none (some "%s".toList)
        [Arg.str "config.txt".toList]).code ∧
    (ROAR_ERRNO_FORMAT Config.default libc "main".toList "example.c".toList 28
        (some plain_handler) main_ptr EINVAL "%s".toList [Arg.str "config.txt".toList]).handler
      = (roar_handler_vraise Config.default libc (some plain_handler) "main".toList
        "example.c".toList 28 main_ptr EINVAL 1 none (some "%s".toList)
        [Arg.str "config.txt".toList]).handler ∧
    (ROAR_ERRNO_VFORMAT Config.default libc "main".toList "example.c".toList 28
        (some plain_handler) main_ptr EINVAL "%s".toList [Arg.str "config.txt".toList]).handler
      = (roar_handler_raise Config.default libc (some plain_handler) "main".toList
        "example.c".toList 28 main_ptr EINVAL 1 none (some "%s".toList)
        [Arg.va [Arg.str "config.txt".toList]]).handler ∧
    (ROAR_ERRNO_VFORMAT Config.default libc "main".toList "example.c".toList 28
        (some plain_handler) main_ptr EINVAL "%s".toList [Arg.str "config.txt".toList]).handler
      ≠ (roar_handler_vraise Config.default libc (some plain_handler) "main".toList
        "example.c".toList 28 main_ptr EINVAL 1 none (some "%s".toList)
        [Arg.str "config.txt".toList]).handler ∧
    (((roar_handler_vraise Config.default libc (some plain_handler) "main".toList
        "example.c".toList 28 main_ptr EINVAL 1 none (some "%s".toList)
        [Arg.str "config.txt".toList]).handler.bind roar_handler.stream)
      = some (header Config.default libc "main".toList "example.c".toList 28
          ++ "Invalid argument \x1b[0m\x7b \x1b[36mconfig.txt\x1b[0m \x7d\n".toList)) := by
  decide

/-- The variadic list is read twice when the handler has both sinks: on a
platform that hands it over by reference, the string buffer is formatted with
what the stream part left of it, here nothing, and the two sinks differ before
any truncation. -/
theorem second_pass_reads_what_is_left :
    (((ROAR_ERRWP_FORMAT Config.default libc_by_ref "f".toList "a.c".toList 1
        (some plain_handler) main_ptr 5 "bad".toList "%s".toList
        [Arg.str "x".toList]).handler.bind roar_handler.stream)
      = some (header Config.default libc "f".toList "a.c".toList 1
          ++ "bad \x1b[0m\x7b \x1b[36mx\x1b[0m \x7d\n".toList)) ∧
    (((ROAR_ERRWP_FORMAT Config.default libc_by_ref "f".toList "a.c".toList 1
        (some plain_handler) main_ptr 5 "bad".toList "%s".toList
        [Arg.str "x".toList]).handler.bind roar_handler.string).map c_text
      = some (header Config.default libc "f".toList "a.c".toList 1
          ++ "bad \x1b[0m\x7b \x1b[36m\x1b[0m \x7d".toList)) := by
  decide

end Roar
